import Mathlib

/-!
Verification of the personal finance tracker backend (categories,
transactions, report engine).  The relational store is modelled as two
in-memory lists; SQL predicates become `List.filter`, `GROUP BY`
aggregation becomes explicit sums and counts, and the `numeric(10,2)`
amount column is modelled by rationals (exact decimal arithmetic), with
`centValued` capturing the 2-decimal storage precision.  Timestamps are
modelled as integers.  Mutating handlers return an outcome (the thrown
error or the response value) paired with the store after the call; a
thrown error that occurs before any write leaves the store unchanged,
exactly as the handlers do.
-/

/-- The `transaction_type` enum from `db/schema.ts`: `'income' | 'expense'`. -/
inductive TransactionType
  | income
  | expense
deriving DecidableEq, Repr

/-- A row of the `categories` table. -/
structure Category where
  id : Int
  name : String
  type : TransactionType
  created_at : Int
deriving DecidableEq, Repr

/-- A row of the `transactions` table.  `amount` is `numeric(10,2)`,
modelled as an exact rational. -/
structure Transaction where
  id : Int
  amount : ℚ
  description : String
  date : Int
  category_id : Int
  type : TransactionType
  created_at : Int
deriving DecidableEq, Repr

/-- The whole relational store: the two tables. -/
structure Store where
  categories : List Category
  transactions : List Transaction
deriving DecidableEq, Repr

/-- The `DateRange` input schema (`start_date`, `end_date`). -/
structure DateRange where
  start_date : Int
  end_date : Int
deriving DecidableEq, Repr

/-- The `ReportSummary` output schema. -/
structure ReportSummary where
  total_income : ℚ
  total_expense : ℚ
  net_amount : ℚ
  transactions_count : Nat
  period : DateRange
deriving DecidableEq, Repr

/-- The `TransactionWithCategory` output schema: a transaction joined
with the name of its category. -/
structure TransactionWithCategory where
  id : Int
  amount : ℚ
  description : String
  date : Int
  category_id : Int
  type : TransactionType
  created_at : Int
  category_name : String
deriving DecidableEq, Repr

/-- A `CategoryReport` output schema row. -/
structure CategoryReport where
  category_id : Int
  category_name : String
  type : TransactionType
  total_amount : ℚ
  transactions_count : Nat
deriving DecidableEq, Repr

/-- A value representable with at most 2 decimal digits — what the
`numeric(10,2)` column stores. -/
abbrev centValued (q : ℚ) : Prop := (q * 100).den = 1

/-- `Math.round(x * 100) / 100` from the handlers: round to 2 decimal
places, halves toward positive infinity (JavaScript `Math.round`). -/
def round2 (q : ℚ) : ℚ := (⌊q * 100 + 1 / 2⌋ : ℚ) / 100

/-- The date predicate used by both report handlers:
`gte(transactions.date, start) AND lte(transactions.date, end)`. -/
def inRange (r : DateRange) (d : Int) : Bool :=
  decide (r.start_date ≤ d) && decide (d ≤ r.end_date)

/-- Attach a category name to a transaction row. -/
def Transaction.withName (t : Transaction) (name : String) : TransactionWithCategory :=
  { id := t.id, amount := t.amount, description := t.description, date := t.date,
    category_id := t.category_id, type := t.type, created_at := t.created_at,
    category_name := name }

/-- `getReportSummary` from `handlers/get_report_summary.ts`: filter
transactions to the inclusive date range, group by type, sum amounts and
count rows per type, then round the totals and the net to 2 decimals. -/
def getReportSummary (dateRange : DateRange) (s : Store) : ReportSummary :=
  let matched := s.transactions.filter (fun t => inRange dateRange t.date)
  let incomeRows := matched.filter (fun t => t.type == TransactionType.income)
  let expenseRows := matched.filter (fun t => t.type == TransactionType.expense)
  let total_income := (incomeRows.map Transaction.amount).sum
  let total_expense := (expenseRows.map Transaction.amount).sum
  { total_income := round2 total_income
    total_expense := round2 total_expense
    net_amount := round2 (total_income - total_expense)
    transactions_count := incomeRows.length + expenseRows.length
    period := dateRange }

/-- The join rows attributed to one category by the date-filtered inner
join of `handlers/get_category_report.ts` (the `category_id` PK makes each
transaction join exactly the category bearing its `category_id`). -/
def categoryGroup (r : DateRange) (s : Store) (c : Category) : List Transaction :=
  s.transactions.filter (fun t => inRange r t.date && t.category_id == c.id)

/-- The aggregate row `GROUP BY (id, name, type)` produces for a category:
`SUM(amount)` and `COUNT(id)` over its group. -/
def categoryRow (r : DateRange) (s : Store) (c : Category) : CategoryReport :=
  { category_id := c.id
    category_name := c.name
    type := c.type
    total_amount := ((categoryGroup r s c).map Transaction.amount).sum
    transactions_count := (categoryGroup r s c).length }

/-- `getCategoryReport` from `handlers/get_category_report.ts`: the SQL
`GROUP BY` over the PK-keyed inner join emits one aggregate row per
category having at least one date-matched transaction; it is modelled by
aggregating per category row and dropping empty groups. -/
def getCategoryReport (r : DateRange) (s : Store) : List CategoryReport :=
  (s.categories.map (categoryRow r s)).filter
    (fun row => row.transactions_count != 0)

/-- Outcome of `deleteCategory`: the two thrown errors or success. -/
inductive DeleteCategoryOutcome
  | notFound (id : Int)
  | conflict (n : Nat)
  | ok
deriving DecidableEq, Repr

/-- `deleteCategory` from the server handlers: check existence (throw
`not found`), check referencing transactions (throw the conflict carrying
their count), else delete the row and return `{success: true}`.  Both
throws happen before the delete statement, so they leave the store
unchanged. -/
def deleteCategory (id : Int) (s : Store) : DeleteCategoryOutcome × Store :=
  if (s.categories.filter (fun c => c.id == id)).length = 0 then
    (.notFound id, s)
  else if 0 < (s.transactions.filter (fun t => t.category_id == id)).length then
    (.conflict (s.transactions.filter (fun t => t.category_id == id)).length, s)
  else
    (.ok, { s with categories := s.categories.filter (fun c => !(c.id == id)) })

/-- The `CreateTransactionInput` schema. -/
structure CreateTransactionInput where
  amount : ℚ
  description : String
  date : Int
  category_id : Int
  type : TransactionType
deriving DecidableEq, Repr

/-- Outcome of `createTransaction`. -/
inductive CreateTransactionOutcome
  | notFound (id : Int)
  | ok (row : TransactionWithCategory)
deriving DecidableEq, Repr

/-- `createTransaction` from `handlers/create_transaction.ts`: resolve the
category (throw `not found` before any write if absent), insert the row
(the store assigns `id` and `created_at`, passed here as `newId`/`nowTs`),
and return it joined with the first resolved category's name. -/
def createTransaction (input : CreateTransactionInput) (newId nowTs : Int)
    (s : Store) : CreateTransactionOutcome × Store :=
  match s.categories.filter (fun c => c.id == input.category_id) with
  | [] => (.notFound input.category_id, s)
  | c :: _ =>
      let t : Transaction :=
        { id := newId, amount := input.amount, description := input.description,
          date := input.date, category_id := input.category_id, type := input.type,
          created_at := nowTs }
      (.ok (t.withName c.name), { s with transactions := s.transactions ++ [t] })

/-- The `UpdateTransactionInput` schema: optional fields are absent
(`none`) or supplied (`some`). -/
structure UpdateTransactionInput where
  id : Int
  amount : Option ℚ
  description : Option String
  date : Option Int
  category_id : Option Int
  type : Option TransactionType
deriving DecidableEq, Repr

/-- The `updateData` object of `updateTransaction`: each supplied field
overwrites the stored one, each absent field is left alone. -/
def applyTxUpdate (input : UpdateTransactionInput) (t : Transaction) : Transaction :=
  { t with
    amount := input.amount.getD t.amount
    description := input.description.getD t.description
    date := input.date.getD t.date
    category_id := input.category_id.getD t.category_id
    type := input.type.getD t.type }

/-- Outcome of `updateTransaction`.  `emptyUpdate` models the store
error the unguarded `db.update(...).set(updateData)` throws when
`updateData` is empty (drizzle: `No values to set`); `readFailure`
models the handler indexing `result[0]` of an empty re-read (only
reachable if the updated row's category vanished, which the foreign key
forbids). -/
inductive UpdateTransactionOutcome
  | notFoundTransaction (id : Int)
  | notFoundCategory (id : Int)
  | emptyUpdate
  | readFailure
  | ok (row : TransactionWithCategory)
deriving DecidableEq, Repr

/-- Whether the `updateData` object built by `updateTransaction` is
empty: no optional field supplied (`Object.keys(updateData).length === 0`
in the source's terms). -/
def UpdateTransactionInput.isEmptyPatch (input : UpdateTransactionInput) : Bool :=
  input.amount.isNone && input.description.isNone && input.date.isNone
    && input.category_id.isNone && input.type.isNone

/-- The write-and-re-read tail of `updateTransaction`.  The handler has
no guard for an empty `updateData` (unlike `updateCategory`), so
`set({})` throws `No values to set` before touching the store — modelled
as the `emptyUpdate` outcome with the store unchanged.  Otherwise update
every row with the target id, then re-read the joined row and return its
first result. -/
def updTxWrite (input : UpdateTransactionInput) (s : Store) :
    UpdateTransactionOutcome × Store :=
  if input.isEmptyPatch then (.emptyUpdate, s)
  else
    let s' : Store :=
      { s with
        transactions := s.transactions.map
          (fun t => if t.id == input.id then applyTxUpdate input t else t) }
    match (s'.transactions.filter (fun t => t.id == input.id)).head? with
    | none => (.readFailure, s')
    | some t =>
        match (s'.categories.filter (fun c => c.id == t.category_id)).head? with
        | none => (.readFailure, s')
        | some c => (.ok (t.withName c.name), s')

/-- `updateTransaction` from the server handlers: check the transaction
exists, validate a supplied `category_id` against the categories table,
apply only the supplied fields, then re-read and return the joined row. -/
def updateTransaction (input : UpdateTransactionInput) (s : Store) :
    UpdateTransactionOutcome × Store :=
  if (s.transactions.filter (fun t => t.id == input.id)).length = 0 then
    (.notFoundTransaction input.id, s)
  else
    match input.category_id with
    | some cid =>
        if (s.categories.filter (fun c => c.id == cid)).length = 0 then
          (.notFoundCategory cid, s)
        else updTxWrite input s
    | none => updTxWrite input s

/-- `deleteTransaction` from `handlers/delete_transaction.ts`: delete all
rows with the id and report `success = (rowCount > 0)`. -/
def deleteTransaction (id : Int) (s : Store) : Bool × Store :=
  let remaining := s.transactions.filter (fun t => !(t.id == id))
  (decide (remaining.length < s.transactions.length),
    { s with transactions := remaining })

/-- The `GetTransactionsInput` filter schema (itself optional at the call
site). -/
structure GetTransactionsInput where
  start_date : Option Int
  end_date : Option Int
  type : Option TransactionType
  category_id : Option Int
deriving DecidableEq, Repr

/-- The condition list built by `handlers/get_transactions.ts`, as one
predicate.  Each clause is pushed only when its input field is truthy in
JavaScript; for `category_id` the number `0` is falsy, so a `0` filter
pushes no clause at all. -/
def txCond (input : Option GetTransactionsInput) (t : Transaction) : Bool :=
  match input with
  | none => true
  | some inp =>
      inp.start_date.all (fun sd => decide (sd ≤ t.date))
      && inp.end_date.all (fun ed => decide (t.date ≤ ed))
      && inp.type.all (fun ty => t.type == ty)
      && inp.category_id.all (fun cid => cid == 0 || t.category_id == cid)

/-- The filter the code actually applies, phrased on output rows. -/
def matchesFilter (input : Option GetTransactionsInput)
    (row : TransactionWithCategory) : Bool :=
  match input with
  | none => true
  | some inp =>
      inp.start_date.all (fun sd => decide (sd ≤ row.date))
      && inp.end_date.all (fun ed => decide (row.date ≤ ed))
      && inp.type.all (fun ty => row.type == ty)
      && inp.category_id.all (fun cid => cid == 0 || row.category_id == cid)

/-- Modelled from the spec sentence for the list operation: every
provided predicate applied conjunctively, with `category_id` compared
whenever it is supplied (no special case for `0`).  Used to compare the
specified filter with the implemented one. -/
def claimedFilter (input : Option GetTransactionsInput)
    (row : TransactionWithCategory) : Bool :=
  match input with
  | none => true
  | some inp =>
      inp.start_date.all (fun sd => decide (sd ≤ row.date))
      && inp.end_date.all (fun ed => decide (row.date ≤ ed))
      && inp.type.all (fun ty => row.type == ty)
      && inp.category_id.all (fun cid => row.category_id == cid)

/-- The inner join of one transaction against the categories table: the
row joined with the first (PK: only) category bearing its
`category_id`, or nothing when the foreign key does not resolve. -/
def joinRow (s : Store) (t : Transaction) : Option TransactionWithCategory :=
  match s.categories.filter (fun c => c.id == t.category_id) with
  | [] => none
  | c :: _ => some (t.withName c.name)

/-- All rows of the transaction–category inner join, in store order. -/
def joinedRows (s : Store) : List TransactionWithCategory :=
  s.transactions.filterMap (joinRow s)

/-- `ORDER BY transactions.date` (ascending). -/
def byDate (a b : TransactionWithCategory) : Prop := a.date ≤ b.date

instance : DecidableRel byDate := fun a b => inferInstanceAs (Decidable (a.date ≤ b.date))

instance : IsTotal TransactionWithCategory byDate := ⟨fun a b => Int.le_total a.date b.date⟩

instance : IsTrans TransactionWithCategory byDate := ⟨fun _ _ _ hab hbc => le_trans hab hbc⟩

/-- `getTransactions` from `handlers/get_transactions.ts`: apply the
condition list, inner-join with categories, order by date ascending. -/
def getTransactions (input : Option GetTransactionsInput) (s : Store) :
    List TransactionWithCategory :=
  List.insertionSort byDate ((s.transactions.filter (txCond input)).filterMap (joinRow s))

/-- The `UpdateCategoryInput` schema. -/
structure UpdateCategoryInput where
  id : Int
  name : Option String
  type : Option TransactionType
deriving DecidableEq, Repr

/-- The `updateData` object of `updateCategory`. -/
def applyCatUpdate (input : UpdateCategoryInput) (c : Category) : Category :=
  { c with name := input.name.getD c.name, type := input.type.getD c.type }

/-- Outcome of `updateCategory`. -/
inductive UpdateCategoryOutcome
  | notFound (id : Int)
  | ok (row : Category)
deriving DecidableEq, Repr

/-- `updateCategory` from the server handlers: with no supplied field,
select the existing row and return it unchanged (no write); otherwise run
the update with `returning()` and return its first row; either way an
unmatched id throws `not found`. -/
def updateCategory (input : UpdateCategoryInput) (s : Store) :
    UpdateCategoryOutcome × Store :=
  if input.name.isNone && input.type.isNone then
    match s.categories.filter (fun c => c.id == input.id) with
    | [] => (.notFound input.id, s)
    | c :: _ => (.ok c, s)
  else
    let updated := s.categories.map
      (fun c => if c.id == input.id then applyCatUpdate input c else c)
    match (s.categories.filter (fun c => c.id == input.id)).map (applyCatUpdate input) with
    | [] => (.notFound input.id, { s with categories := updated })
    | c :: _ => (.ok c, { s with categories := updated })

/-! Concrete sample data, used by the closed instance theorems below. -/

/-- Sample income category. -/
def catSalary : Category := { id := 1, name := "Salary", type := .income, created_at := 0 }

/-- Sample expense category. -/
def catFood : Category := { id := 2, name := "Food", type := .expense, created_at := 0 }

/-- Sample category nothing refers to. -/
def catUnused : Category := { id := 3, name := "Misc", type := .expense, created_at := 0 }

/-- Sample income transaction dated exactly at the sample range start. -/
def txSalary : Transaction :=
  { id := 1, amount := 5000, description := "gaji", date := 10, category_id := 1,
    type := .income, created_at := 0 }

/-- Sample income transaction inside the sample range. -/
def txBonus : Transaction :=
  { id := 2, amount := 3000, description := "bonus", date := 12, category_id := 1,
    type := .income, created_at := 0 }

/-- Sample expense transaction dated exactly at the sample range end. -/
def txFood : Transaction :=
  { id := 3, amount := 120, description := "makan", date := 15, category_id := 2,
    type := .expense, created_at := 0 }

/-- Sample expense transaction outside the sample range. -/
def txLate : Transaction :=
  { id := 4, amount := 99.75, description := "late", date := 100, category_id := 2,
    type := .expense, created_at := 0 }

/-- Sample store. -/
def storeA : Store :=
  { categories := [catSalary, catFood, catUnused],
    transactions := [txSalary, txBonus, txFood, txLate] }

/-- Sample date range, with transactions on both boundaries. -/
def rangeA : DateRange := { start_date := 10, end_date := 15 }

/-- Sample filter whose only provided predicate is `category_id = 0`. -/
def inputZero : Option GetTransactionsInput :=
  some { start_date := none, end_date := none, type := none, category_id := some 0 }

/-- The same sample filter with the `category_id` predicate absent. -/
def inputNoCat : Option GetTransactionsInput :=
  some { start_date := none, end_date := none, type := none, category_id := none }

/-! Helper lemmas. -/

lemma centValued_iff (q : ℚ) : centValued q ↔ ∃ n : ℤ, q * 100 = (n : ℚ) := by
  constructor
  · intro h
    exact ⟨(q * 100).num, by rw [← Rat.num_div_den (q * 100), h]; simp⟩
  · rintro ⟨n, hn⟩
    simp [centValued, hn]

lemma centValued_zero : centValued 0 := by simp [centValued]

lemma centValued_add {a b : ℚ} (ha : centValued a) (hb : centValued b) :
    centValued (a + b) := by
  rw [centValued_iff] at ha hb ⊢
  obtain ⟨n, hn⟩ := ha
  obtain ⟨m, hm⟩ := hb
  exact ⟨n + m, by push_cast [add_mul, hn, hm]; ring⟩

lemma centValued_sub {a b : ℚ} (ha : centValued a) (hb : centValued b) :
    centValued (a - b) := by
  rw [centValued_iff] at ha hb ⊢
  obtain ⟨n, hn⟩ := ha
  obtain ⟨m, hm⟩ := hb
  exact ⟨n - m, by push_cast [sub_mul, hn, hm]; ring⟩

lemma centValued_sum {l : List Transaction} (h : ∀ t ∈ l, centValued t.amount) :
    centValued ((l.map Transaction.amount).sum) := by
  induction l with
  | nil => simpa using centValued_zero
  | cons t ts ih =>
      simp only [List.map_cons, List.sum_cons]
      exact centValued_add (h t (by simp)) (ih (fun u hu => h u (by simp [hu])))

/-- Rounding to cents is the identity on cent-valued quantities. -/
lemma round2_centValued {q : ℚ} (h : centValued q) : round2 q = q := by
  rw [centValued_iff] at h
  obtain ⟨n, hn⟩ := h
  have hfloor : ⌊q * 100 + 1 / 2⌋ = n := by
    rw [hn]
    have : ⌊(n : ℚ) + 1 / 2⌋ = n + ⌊(1 / 2 : ℚ)⌋ := Int.floor_int_add n (1 / 2 : ℚ)
    rw [this]
    norm_num
  rw [round2, hfloor, ← hn]
  field_simp

lemma filter_income_expense_length (l : List Transaction) :
    (l.filter (fun t => t.type == TransactionType.income)).length
      + (l.filter (fun t => t.type == TransactionType.expense)).length = l.length := by
  induction l with
  | nil => simp
  | cons t ts ih =>
      cases h : t.type <;>
        simp only [List.filter_cons, h] <;> simp [← ih] <;> omega

lemma report_filter_comm (r : DateRange) (s : Store) (ty : TransactionType) :
    ((s.transactions.filter (fun t => inRange r t.date)).filter (fun t => t.type == ty))
      = s.transactions.filter (fun t => inRange r t.date && t.type == ty) := by
  rw [List.filter_filter]
  exact List.filter_congr (fun a _ => Bool.and_comm _ _)

lemma filter_id_eq_of_nodup (p : Category → Bool) :
    ∀ (l : List Category), (l.map Category.id).Nodup → ∀ c ∈ l,
      l.filter (fun c' => p c' && (c'.id == c.id))
        = if p c then [c] else [] := by
  intro l
  induction l with
  | nil => intro _ c hc; cases hc
  | cons a l ih =>
      intro hnd c hc
      simp only [List.map_cons, List.nodup_cons] at hnd
      rcases List.mem_cons.mp hc with rfl | hmem
      · have htail : l.filter (fun c' => p c' && (c'.id == c.id)) = [] := by
          refine List.filter_eq_nil_iff.mpr (fun c' hc' => ?_)
          have : c'.id ≠ c.id := fun h =>
            hnd.1 (h ▸ List.mem_map_of_mem Category.id hc')
          simp [this]
        by_cases hp : p c = true <;>
          simp [List.filter_cons, hp, htail]
      · have hne : (a.id == c.id) = false := by
          have : a.id ≠ c.id := fun h =>
            hnd.1 (h ▸ List.mem_map_of_mem Category.id hmem)
          simpa using this
        simp only [List.filter_cons, hne, Bool.and_false, if_neg Bool.false_ne_true]
        exact ih hnd.2 c hmem

lemma beq_income_expense :
    (TransactionType.income == TransactionType.expense) = false := rfl

lemma beq_expense_income :
    (TransactionType.expense == TransactionType.income) = false := rfl

lemma beq_type_self (a : TransactionType) : (a == a) = true := by cases a <;> rfl

/-! The claims. -/

/-- C1: `getReportSummary` returns the 2-decimal-rounded per-kind sums over
the inclusive date range, a net equal to the rounded difference (which, for
cent-valued stored amounts, coincides with the difference of the returned
totals), the total in-range row count, and the input range echoed back. -/
theorem getReportSummary_spec (r : DateRange) (s : Store)
    (hcent : ∀ t ∈ s.transactions, centValued t.amount) :
    (getReportSummary r s).total_income
      = round2 (((s.transactions.filter
          (fun t => inRange r t.date && t.type == TransactionType.income)).map
            Transaction.amount).sum)
  ∧ (getReportSummary r s).total_expense
      = round2 (((s.transactions.filter
          (fun t => inRange r t.date && t.type == TransactionType.expense)).map
            Transaction.amount).sum)
  ∧ (getReportSummary r s).net_amount
      = round2 ((getReportSummary r s).total_income - (getReportSummary r s).total_expense)
  ∧ (getReportSummary r s).total_income - (getReportSummary r s).total_expense
      = (getReportSummary r s).net_amount
  ∧ (getReportSummary r s).transactions_count
      = (s.transactions.filter (fun t => inRange r t.date)).length
  ∧ (getReportSummary r s).period = r := by
  have hsub : ∀ (l : List Transaction), l.Sublist s.transactions →
      ∀ t ∈ l, centValued t.amount := fun l hl t ht => hcent t (hl.mem ht)
  have hmatched : (s.transactions.filter (fun t => inRange r t.date)).Sublist
      s.transactions := List.filter_sublist _
  have hti : centValued (((s.transactions.filter (fun t => inRange r t.date)).filter
      (fun t => t.type == TransactionType.income)).map Transaction.amount).sum :=
    centValued_sum (hsub _ ((List.filter_sublist _).trans hmatched))
  have hte : centValued (((s.transactions.filter (fun t => inRange r t.date)).filter
      (fun t => t.type == TransactionType.expense)).map Transaction.amount).sum :=
    centValued_sum (hsub _ ((List.filter_sublist _).trans hmatched))
  refine ⟨?_, ?_, ?_, ?_, ?_, rfl⟩
  · show round2 _ = round2 _
    rw [report_filter_comm]
  · show round2 _ = round2 _
    rw [report_filter_comm]
  · show round2 _ = round2 (round2 _ - round2 _)
    rw [round2_centValued hti, round2_centValued hte]
  · show round2 _ - round2 _ = round2 _
    rw [round2_centValued hti, round2_centValued hte,
      round2_centValued (centValued_sub hti hte)]
  · show _ + _ = _
    exact filter_income_expense_length _

/-- C1, instantiated: the sample store is cent-valued and the summary over
the sample range satisfies the specification; in particular the totals
come out as 8000 income, 120 expense, 7880 net over 3 transactions. -/
theorem getReportSummary_spec_witness :
    (∀ t ∈ storeA.transactions, centValued t.amount)
  ∧ ((getReportSummary rangeA storeA).transactions_count
      = (storeA.transactions.filter (fun t => inRange rangeA t.date)).length
    ∧ (getReportSummary rangeA storeA).total_income
        - (getReportSummary rangeA storeA).total_expense
        = (getReportSummary rangeA storeA).net_amount)
  ∧ getReportSummary rangeA storeA
      = { total_income := 8000, total_expense := 120, net_amount := 7880,
          transactions_count := 3, period := rangeA } := by
  have hcent : ∀ t ∈ storeA.transactions, centValued t.amount := by
    norm_num [storeA, txSalary, txBonus, txFood, txLate, centValued]
  refine ⟨hcent,
    ⟨(getReportSummary_spec rangeA storeA hcent).2.2.2.2.1,
     (getReportSummary_spec rangeA storeA hcent).2.2.2.1⟩, ?_⟩
  simp [getReportSummary, storeA, rangeA, inRange, round2,
    txSalary, txBonus, txFood, txLate]
  norm_num

/-- C2: every report row comes from a category with a nonempty group, and
for each stored category the report holds exactly one row — carrying that
category's group sum and group count — when its group is nonempty, and no
row at all when its group is empty. -/
theorem getCategoryReport_spec (r : DateRange) (s : Store)
    (hnodup : (s.categories.map Category.id).Nodup)
    (c : Category) (hc : c ∈ s.categories) :
    (∀ row ∈ getCategoryReport r s,
        ∃ c' ∈ s.categories, row = categoryRow r s c' ∧ categoryGroup r s c' ≠ [])
  ∧ ((getCategoryReport r s).filter (fun row => row.category_id == c.id)
      = if categoryGroup r s c = [] then [] else [categoryRow r s c]) := by
  constructor
  · intro row hrow
    simp only [getCategoryReport, List.mem_filter, List.mem_map] at hrow
    obtain ⟨⟨c', hc', hrow'⟩, hcount⟩ := hrow
    refine ⟨c', hc', hrow'.symm, fun hnil => ?_⟩
    rw [← hrow'] at hcount
    simp [categoryRow, hnil] at hcount
  · rw [getCategoryReport, List.filter_filter, List.filter_map]
    have : (s.categories.filter
        ((fun row => (row.category_id == c.id) && (row.transactions_count != 0))
          ∘ categoryRow r s)).map (categoryRow r s)
        = (s.categories.filter (fun c' =>
            ((categoryGroup r s c').length != 0) && (c'.id == c.id))).map
              (categoryRow r s) := by
      refine congrArg _ (List.filter_congr (fun c' _ => ?_))
      simp only [Function.comp, categoryRow]
      exact Bool.and_comm _ _
    rw [this, filter_id_eq_of_nodup _ s.categories hnodup c hc]
    by_cases hnil : categoryGroup r s c = []
    · simp [hnil]
    · have : ((categoryGroup r s c).length != 0) = true := by
        simp only [bne_iff_ne, ne_eq, List.length_eq_zero]
        exact hnil
      simp [hnil, this]

/-- C2, instantiated: on the sample store the category with two in-range
income transactions (5000 and 3000) reports one row `(8000, 2)`, and the
category with no in-range transaction is absent. -/
theorem getCategoryReport_spec_witness :
    ((storeA.categories.map Category.id).Nodup ∧ catSalary ∈ storeA.categories)
  ∧ ((getCategoryReport rangeA storeA).filter
        (fun row => row.category_id == catSalary.id)
      = if categoryGroup rangeA storeA catSalary = []
        then [] else [categoryRow rangeA storeA catSalary])
  ∧ (getCategoryReport rangeA storeA).filter
        (fun row => row.category_id == catUnused.id) = [] :=
  ⟨⟨by decide, by decide⟩,
   (getCategoryReport_spec rangeA storeA (by decide) catSalary (by decide)).2,
   by decide⟩

/-- C7: a transaction dated exactly at either end of the range passes the
date filter, is counted by `getReportSummary` (it sits in the in-range
list whose length is the returned count, and in the per-kind list that is
summed), and its category's aggregate row — computed over a group
containing it — appears in `getCategoryReport`. -/
theorem boundary_inclusivity (r : DateRange) (s : Store) (t : Transaction)
    (c : Category) (ht : t ∈ s.transactions) (hc : c ∈ s.categories)
    (hcid : t.category_id = c.id)
    (hbound : t.date = r.start_date ∨ t.date = r.end_date)
    (hrange : r.start_date ≤ r.end_date) :
    inRange r t.date = true
  ∧ t ∈ s.transactions.filter (fun t' => inRange r t'.date)
  ∧ (getReportSummary r s).transactions_count
      = (s.transactions.filter (fun t' => inRange r t'.date)).length
  ∧ 1 ≤ (getReportSummary r s).transactions_count
  ∧ t ∈ (s.transactions.filter (fun t' => inRange r t'.date)).filter
        (fun t' => t'.type == t.type)
  ∧ t ∈ categoryGroup r s c
  ∧ categoryRow r s c ∈ getCategoryReport r s := by
  have hin : inRange r t.date = true := by
    rcases hbound with hb | hb <;>
      simp [inRange, hb, hrange, le_refl]
  have hmem : t ∈ s.transactions.filter (fun t' => inRange r t'.date) :=
    List.mem_filter.mpr ⟨ht, hin⟩
  have hcount : (getReportSummary r s).transactions_count
      = (s.transactions.filter (fun t' => inRange r t'.date)).length :=
    filter_income_expense_length _
  have hgroup : t ∈ categoryGroup r s c := by
    refine List.mem_filter.mpr ⟨ht, ?_⟩
    simp [hin, hcid]
  refine ⟨hin, hmem, hcount, ?_, ?_, hgroup, ?_⟩
  · rw [hcount]
    exact List.length_pos.mpr (List.ne_nil_of_mem hmem)
  · exact List.mem_filter.mpr ⟨hmem, beq_type_self t.type⟩
  · refine List.mem_filter.mpr ⟨List.mem_map_of_mem (categoryRow r s) hc, ?_⟩
    have : (categoryGroup r s c).length ≠ 0 := by
      simpa [List.length_eq_zero] using List.ne_nil_of_mem hgroup
    simpa [categoryRow] using this

/-- C7, instantiated: the sample transactions dated exactly at the range
start (`txSalary`, day 10) and range end (`txFood`, day 15) are both in
range, counted, and reported in their categories' rows. -/
theorem boundary_inclusivity_witness :
    (txSalary ∈ storeA.transactions ∧ txFood ∈ storeA.transactions
      ∧ txSalary.date = rangeA.start_date ∧ txFood.date = rangeA.end_date)
  ∧ (txSalary ∈ categoryGroup rangeA storeA catSalary
      ∧ categoryRow rangeA storeA catSalary ∈ getCategoryReport rangeA storeA)
  ∧ (txFood ∈ categoryGroup rangeA storeA catFood
      ∧ categoryRow rangeA storeA catFood ∈ getCategoryReport rangeA storeA)
  ∧ 1 ≤ (getReportSummary rangeA storeA).transactions_count :=
  ⟨⟨by decide, by decide, by decide, by decide⟩,
   ⟨(boundary_inclusivity rangeA storeA txSalary catSalary (by decide) (by decide)
      (by decide) (Or.inl (by decide)) (by decide)).2.2.2.2.2.1,
    (boundary_inclusivity rangeA storeA txSalary catSalary (by decide) (by decide)
      (by decide) (Or.inl (by decide)) (by decide)).2.2.2.2.2.2⟩,
   ⟨(boundary_inclusivity rangeA storeA txFood catFood (by decide) (by decide)
      (by decide) (Or.inr (by decide)) (by decide)).2.2.2.2.2.1,
    (boundary_inclusivity rangeA storeA txFood catFood (by decide) (by decide)
      (by decide) (Or.inr (by decide)) (by decide)).2.2.2.2.2.2⟩,
   (boundary_inclusivity rangeA storeA txSalary catSalary (by decide) (by decide)
      (by decide) (Or.inl (by decide)) (by decide)).2.2.2.1⟩

/-- C3: `deleteCategory` answers "not found" (and leaves the store alone)
when no category has the id; fails with a conflict carrying exactly the
number N ≥ 1 of referencing transactions, leaving the category in place;
and with zero references it removes the row and succeeds. -/
theorem deleteCategory_spec (id : Int) (s : Store) :
    ((∀ c ∈ s.categories, c.id ≠ id) → deleteCategory id s = (.notFound id, s))
  ∧ (∀ c ∈ s.categories, c.id = id →
      ∀ N, N = (s.transactions.filter (fun t => t.category_id == id)).length →
        1 ≤ N → deleteCategory id s = (.conflict N, s))
  ∧ (∀ c ∈ s.categories, c.id = id →
      (∀ t ∈ s.transactions, t.category_id ≠ id) →
        (deleteCategory id s).1 = .ok
      ∧ (deleteCategory id s).2.categories
          = s.categories.filter (fun c' => !(c'.id == id))
      ∧ (∀ c' ∈ (deleteCategory id s).2.categories, c'.id ≠ id)
      ∧ (∀ c' ∈ s.categories, c'.id ≠ id → c' ∈ (deleteCategory id s).2.categories)
      ∧ (deleteCategory id s).2.transactions = s.transactions) := by
  refine ⟨?_, ?_, ?_⟩
  · intro h
    have hf : s.categories.filter (fun c => c.id == id) = [] :=
      List.filter_eq_nil_iff.mpr (fun c hc => by simpa using h c hc)
    simp [deleteCategory, hf]
  · intro c hc hcid N hN hN1
    have hmem : c ∈ s.categories.filter (fun c' => c'.id == id) :=
      List.mem_filter.mpr ⟨hc, by simp [hcid]⟩
    have hne : (s.categories.filter (fun c' => c'.id == id)).length ≠ 0 := by
      simpa [List.length_eq_zero] using List.ne_nil_of_mem hmem
    have hpos : 0 < (s.transactions.filter (fun t => t.category_id == id)).length := by
      omega
    simp [deleteCategory, hne, hpos, hN]
  · intro c hc hcid href
    have hmem : c ∈ s.categories.filter (fun c' => c'.id == id) :=
      List.mem_filter.mpr ⟨hc, by simp [hcid]⟩
    have hne : (s.categories.filter (fun c' => c'.id == id)).length ≠ 0 := by
      simpa [List.length_eq_zero] using List.ne_nil_of_mem hmem
    have hf : s.transactions.filter (fun t => t.category_id == id) = [] :=
      List.filter_eq_nil_iff.mpr (fun t ht => by simpa using href t ht)
    have hres : deleteCategory id s
        = (.ok, { s with categories := s.categories.filter (fun c' => !(c'.id == id)) }) := by
      simp [deleteCategory, hne, hf]
    refine ⟨by rw [hres], by rw [hres], ?_, ?_, by rw [hres]⟩
    · intro c' hc'
      rw [hres] at hc'
      have := (List.mem_filter.mp hc').2
      simpa using this
    · intro c' hc' hcne
      rw [hres]
      exact List.mem_filter.mpr ⟨hc', by simpa using hcne⟩

/-- C3, instantiated on the sample store: an unknown id is "not found";
the income category referenced by 2 transactions produces a conflict
carrying exactly 2 with the store untouched; the unreferenced category is
deleted with success. -/
theorem deleteCategory_spec_witness :
    deleteCategory 99 storeA = (.notFound 99, storeA)
  ∧ (storeA.transactions.filter (fun t => t.category_id == 1)).length = 2
  ∧ deleteCategory 1 storeA
      = (.conflict (storeA.transactions.filter (fun t => t.category_id == 1)).length,
          storeA)
  ∧ (deleteCategory 3 storeA).1 = .ok
  ∧ (∀ c' ∈ (deleteCategory 3 storeA).2.categories, c'.id ≠ 3)
  ∧ (deleteCategory 3 storeA).2.transactions = storeA.transactions :=
  ⟨(deleteCategory_spec 99 storeA).1 (by decide),
   by decide,
   (deleteCategory_spec 1 storeA).2.1 catSalary (by decide) (by decide) _ rfl
     (by decide),
   ((deleteCategory_spec 3 storeA).2.2 catUnused (by decide) (by decide)
     (by decide)).1,
   ((deleteCategory_spec 3 storeA).2.2 catUnused (by decide) (by decide)
     (by decide)).2.2.1,
   ((deleteCategory_spec 3 storeA).2.2 catUnused (by decide) (by decide)
     (by decide)).2.2.2.2⟩

/-- C4: `createTransaction` with an unresolvable `category_id` fails with
"not found" and leaves the store (in particular the transactions table)
unchanged; with a resolvable one it appends exactly one transaction
carrying the supplied fields and returns that row joined with the
resolved category's name. -/
theorem createTransaction_spec (input : CreateTransactionInput)
    (newId nowTs : Int) (s : Store) :
    ((∀ c ∈ s.categories, c.id ≠ input.category_id) →
      createTransaction input newId nowTs s = (.notFound input.category_id, s))
  ∧ (∀ c cs, s.categories.filter (fun c' => c'.id == input.category_id) = c :: cs →
      (createTransaction input newId nowTs s).1
        = .ok (Transaction.withName
            { id := newId, amount := input.amount, description := input.description,
              date := input.date, category_id := input.category_id,
              type := input.type, created_at := nowTs } c.name)
      ∧ (createTransaction input newId nowTs s).2.transactions
          = s.transactions ++
            [{ id := newId, amount := input.amount, description := input.description,
               date := input.date, category_id := input.category_id,
               type := input.type, created_at := nowTs }]
      ∧ (createTransaction input newId nowTs s).2.categories = s.categories) := by
  constructor
  · intro h
    have hf : s.categories.filter (fun c => c.id == input.category_id) = [] :=
      List.filter_eq_nil_iff.mpr (fun c hc => by simpa using h c hc)
    simp [createTransaction, hf]
  · intro c cs hfilter
    rw [createTransaction, hfilter]
    exact ⟨rfl, rfl, rfl⟩

/-- C4, instantiated: creating with the unknown category 99 fails and
changes nothing; creating with category 2 appends the one new row and
returns it joined with the category's name. -/
theorem createTransaction_spec_witness :
    createTransaction
        { amount := 7, description := "kopi", date := 11, category_id := 99,
          type := .expense } 5 50 storeA
      = (.notFound 99, storeA)
  ∧ (createTransaction
        { amount := 7, description := "kopi", date := 11, category_id := 2,
          type := .expense } 5 50 storeA).2.transactions
      = storeA.transactions ++
        [{ id := 5, amount := 7, description := "kopi", date := 11,
           category_id := 2, type := .expense, created_at := 50 }]
  ∧ (createTransaction
        { amount := 7, description := "kopi", date := 11, category_id := 2,
          type := .expense } 5 50 storeA).1
      = .ok { id := 5, amount := 7, description := "kopi", date := 11,
              category_id := 2, type := .expense, created_at := 50,
              category_name := "Food" } :=
  ⟨(createTransaction_spec _ 5 50 storeA).1 (by decide),
   ((createTransaction_spec _ 5 50 storeA).2 catFood [] (by decide)).2.1,
   ((createTransaction_spec _ 5 50 storeA).2 catFood [] (by decide)).1⟩

lemma filter_map_update_of_ne (i : Int) (g : Transaction → Transaction)
    (l : List Transaction) (h : ∀ t ∈ l, t.id ≠ i) :
    (l.map (fun t => if t.id == i then g t else t)).filter
      (fun t => t.id == i) = [] := by
  induction l with
  | nil => rfl
  | cons a l ih =>
      have hbeq : (a.id == i) = false := by simpa using h a (by simp)
      simp only [List.map_cons, hbeq, Bool.false_eq_true, if_false, List.filter_cons,
        hbeq]
      exact ih (fun t ht => h t (by simp [ht]))

lemma filter_map_update (i : Int) (g : Transaction → Transaction)
    (hg : ∀ t, (g t).id = t.id) :
    ∀ (l : List Transaction), (l.map Transaction.id).Nodup →
      ∀ t0 ∈ l, t0.id = i →
        (l.map (fun t => if t.id == i then g t else t)).filter
          (fun t => t.id == i) = [g t0] := by
  intro l
  induction l with
  | nil => intro _ t0 h; cases h
  | cons a l ih =>
      intro hnd t0 ht0 hi
      simp only [List.map_cons, List.nodup_cons] at hnd
      rcases List.mem_cons.mp ht0 with rfl | hmem
      · have hbeq : (t0.id == i) = true := by simpa using hi
        have htail : ∀ t ∈ l, t.id ≠ i := by
          intro t ht hti
          exact hnd.1 (by
            have : t.id = t0.id := by rw [hti, hi]
            exact this ▸ List.mem_map_of_mem Transaction.id ht)
        have hgbeq : ((g t0).id == i) = true := by simpa [hg t0] using hi
        simp only [List.map_cons, hbeq, if_true, List.filter_cons, hgbeq,
          List.cons.injEq, true_and]
        exact filter_map_update_of_ne i g l htail
      · have ha : a.id ≠ i := by
          intro hai
          exact hnd.1 (by
            have : a.id = t0.id := by rw [hai, hi]
            exact this ▸ List.mem_map_of_mem Transaction.id hmem)
        have hbeq : (a.id == i) = false := by simpa using ha
        simp only [List.map_cons, hbeq, Bool.false_eq_true, if_false,
          List.filter_cons, hbeq]
        exact ih hnd.2 t0 hmem hi

/-- C5 (amended): when the target transaction exists (unique ids), the
input supplies at least one field, and the category lookup for the
updated row resolves, `updateTransaction` overwrites only the supplied
fields of that row, leaves every other row alone, and returns the
updated row — re-read from the written store and joined with its
category's name.  Every field the input leaves `none` keeps its prior
value in the row that is subsequently read back.  (An input supplying no
field at all throws the store's empty-`SET` error instead; see the
counterexample.) -/
theorem updateTransaction_spec (input : UpdateTransactionInput) (s : Store)
    (t0 : Transaction) (c : Category) (cs : List Category)
    (hnodup : (s.transactions.map Transaction.id).Nodup)
    (ht0 : t0 ∈ s.transactions) (hid : t0.id = input.id)
    (hne : input.isEmptyPatch = false)
    (hcat : s.categories.filter
        (fun c' => c'.id == (applyTxUpdate input t0).category_id) = c :: cs) :
    (updateTransaction input s).1
      = .ok ((applyTxUpdate input t0).withName c.name)
  ∧ (updateTransaction input s).2.transactions
      = s.transactions.map
          (fun t => if t.id == input.id then applyTxUpdate input t else t)
  ∧ applyTxUpdate input t0 ∈ (updateTransaction input s).2.transactions
  ∧ (∀ u ∈ s.transactions, u.id ≠ input.id →
      u ∈ (updateTransaction input s).2.transactions)
  ∧ (input.amount = none → (applyTxUpdate input t0).amount = t0.amount)
  ∧ (input.description = none →
      (applyTxUpdate input t0).description = t0.description)
  ∧ (input.date = none → (applyTxUpdate input t0).date = t0.date)
  ∧ (input.category_id = none →
      (applyTxUpdate input t0).category_id = t0.category_id)
  ∧ (input.type = none → (applyTxUpdate input t0).type = t0.type) := by
  have hmem : t0 ∈ s.transactions.filter (fun t => t.id == input.id) :=
    List.mem_filter.mpr ⟨ht0, by simpa using hid⟩
  have hexists : ¬ (s.transactions.filter (fun t => t.id == input.id)).length = 0 := by
    simpa [List.length_eq_zero] using List.ne_nil_of_mem hmem
  have hfilter' : (s.transactions.map
        (fun t => if t.id == input.id then applyTxUpdate input t else t)).filter
      (fun t => t.id == input.id) = [applyTxUpdate input t0] :=
    filter_map_update input.id (applyTxUpdate input) (fun _ => rfl)
      s.transactions hnodup t0 ht0 hid
  have hwrite : updateTransaction input s = updTxWrite input s := by
    rw [updateTransaction, if_neg hexists]
    cases hcid : input.category_id with
    | none => rfl
    | some cid =>
        have hc : (applyTxUpdate input t0).category_id = cid := by
          simp [applyTxUpdate, hcid]
        rw [hc] at hcat
        have hcne : ¬ (s.categories.filter (fun c' => c'.id == cid)).length = 0 := by
          simp [hcat]
        show (if (s.categories.filter (fun c => c.id == cid)).length = 0 then
            (UpdateTransactionOutcome.notFoundCategory cid, s)
          else updTxWrite input s) = updTxWrite input s
        rw [if_neg hcne]
  have hrun : updTxWrite input s
      = (.ok ((applyTxUpdate input t0).withName c.name),
         { s with
           transactions := s.transactions.map
             (fun t => if t.id == input.id then applyTxUpdate input t else t) }) := by
    rw [updTxWrite, if_neg (by simp [hne])]
    simp only [hfilter', List.head?_cons, hcat]
  refine ⟨?_, ?_, ?_, ?_, ?_, ?_, ?_, ?_, ?_⟩
  · rw [hwrite, hrun]
  · rw [hwrite, hrun]
  · rw [hwrite, hrun]
    have : applyTxUpdate input t0 ∈ [applyTxUpdate input t0] := by simp
    exact (List.mem_filter.mp (hfilter' ▸ this)).1
  · intro u hu hune
    rw [hwrite, hrun]
    have : (if u.id == input.id then applyTxUpdate input u else u) = u := by
      simp [hune]
    exact this ▸ List.mem_map_of_mem _ hu
  · intro h; simp [applyTxUpdate, h]
  · intro h; simp [applyTxUpdate, h]
  · intro h; simp [applyTxUpdate, h]
  · intro h; simp [applyTxUpdate, h]
  · intro h; simp [applyTxUpdate, h]

/-- C5, instantiated: updating only the amount of the sample expense
transaction returns the re-read joined row whose description, date,
category and type all keep their prior values. -/
theorem updateTransaction_spec_witness :
    ((storeA.transactions.map Transaction.id).Nodup ∧ txFood ∈ storeA.transactions)
  ∧ (updateTransaction
        { id := 3, amount := some 150, description := none, date := none,
          category_id := none, type := none } storeA).1
      = .ok ((applyTxUpdate
          { id := 3, amount := some 150, description := none, date := none,
            category_id := none, type := none } txFood).withName catFood.name)
  ∧ (applyTxUpdate
        { id := 3, amount := some 150, description := none, date := none,
          category_id := none, type := none } txFood).description
      = txFood.description
  ∧ (applyTxUpdate
        { id := 3, amount := some 150, description := none, date := none,
          category_id := none, type := none } txFood).date = txFood.date
  ∧ (applyTxUpdate
        { id := 3, amount := some 150, description := none, date := none,
          category_id := none, type := none } txFood).category_id
      = txFood.category_id
  ∧ (applyTxUpdate
        { id := 3, amount := some 150, description := none, date := none,
          category_id := none, type := none } txFood).type = txFood.type :=
  ⟨⟨by decide, by decide⟩,
   (updateTransaction_spec _ storeA txFood catFood [] (by decide) (by decide)
      (by decide) (by decide) (by decide)).1,
   (updateTransaction_spec _ storeA txFood catFood [] (by decide) (by decide)
      (by decide) (by decide) (by decide)).2.2.2.2.2.1 rfl,
   (updateTransaction_spec _ storeA txFood catFood [] (by decide) (by decide)
      (by decide) (by decide) (by decide)).2.2.2.2.2.2.1 rfl,
   (updateTransaction_spec _ storeA txFood catFood [] (by decide) (by decide)
      (by decide) (by decide) (by decide)).2.2.2.2.2.2.2.1 rfl,
   (updateTransaction_spec _ storeA txFood catFood [] (by decide) (by decide)
      (by decide) (by decide) (by decide)).2.2.2.2.2.2.2.2 rfl⟩

/-- C5, counterexample to the claim as stated: the sample transaction
with id 3 exists, yet updating it with an input that supplies no field
at all hits the unguarded `set({})` — the store's `No values to set`
error — so the call throws with the store unchanged instead of
returning the joined re-read row the claim promises for every partial
update input. -/
theorem updateTransaction_claim_counterexample :
    txFood ∈ storeA.transactions ∧ txFood.id = 3
  ∧ (updateTransaction
        { id := 3, amount := none, description := none, date := none,
          category_id := none, type := none } storeA).1
      = UpdateTransactionOutcome.emptyUpdate
  ∧ (updateTransaction
        { id := 3, amount := none, description := none, date := none,
          category_id := none, type := none } storeA).1
      ≠ UpdateTransactionOutcome.ok
          ((applyTxUpdate
              { id := 3, amount := none, description := none, date := none,
                category_id := none, type := none } txFood).withName catFood.name)
  ∧ (updateTransaction
        { id := 3, amount := none, description := none, date := none,
          category_id := none, type := none } storeA).2 = storeA :=
  ⟨by decide, by decide, by decide, by decide, rfl⟩

lemma length_filter_lt_iff (p : Transaction → Bool) (l : List Transaction) :
    (l.filter p).length < l.length ↔ ∃ t ∈ l, ¬ p t = true := by
  induction l with
  | nil => simp
  | cons a l ih =>
      by_cases hp : p a = true
      · rw [List.filter_cons, if_pos hp]
        simp only [List.length_cons, Nat.add_lt_add_iff_right, ih, List.mem_cons]
        constructor
        · rintro ⟨t, ht, hpt⟩
          exact ⟨t, Or.inr ht, hpt⟩
        · rintro ⟨t, rfl | ht, hpt⟩
          · exact absurd hp hpt
          · exact ⟨t, ht, hpt⟩
      · rw [List.filter_cons, if_neg hp]
        have hle := List.length_filter_le p l
        simp only [List.length_cons]
        constructor
        · intro _
          exact ⟨a, List.mem_cons_self a l, hp⟩
        · intro _
          omega

/-- C6: `deleteTransaction` reports success exactly when some stored row
bears the id; it removes every such row; deleting again right away
reports failure; and deleting an absent id returns `success = false` with
the store unchanged (a no-op, not an error). -/
theorem deleteTransaction_spec (i : Int) (s : Store) :
    ((deleteTransaction i s).1 = true ↔ ∃ t ∈ s.transactions, t.id = i)
  ∧ (deleteTransaction i s).2.transactions
      = s.transactions.filter (fun t => !(t.id == i))
  ∧ (deleteTransaction i ((deleteTransaction i s).2)).1 = false
  ∧ ((∀ t ∈ s.transactions, t.id ≠ i) → deleteTransaction i s = (false, s)) := by
  refine ⟨?_, rfl, ?_, ?_⟩
  · have h1 : (deleteTransaction i s).1 = true
        ↔ (s.transactions.filter (fun t => !(t.id == i))).length
            < s.transactions.length := by
      simp [deleteTransaction]
    rw [h1, length_filter_lt_iff]
    simp
  · have hself : (s.transactions.filter (fun t => !(t.id == i))).filter
        (fun t => !(t.id == i)) = s.transactions.filter (fun t => !(t.id == i)) :=
      List.filter_eq_self.mpr (fun a ha => (List.mem_filter.mp ha).2)
    simp [deleteTransaction, hself]
  · intro h
    have hf : s.transactions.filter (fun t => !(t.id == i)) = s.transactions :=
      List.filter_eq_self.mpr (fun t ht => by simpa using h t ht)
    simp [deleteTransaction, hf]

/-- C6, instantiated: deleting the sample transaction id 1 succeeds, a
second delete of the same id reports failure, and deleting the unknown
id 99 is a no-op returning `success = false` with the store unchanged. -/
theorem deleteTransaction_spec_witness :
    (deleteTransaction 1 storeA).1 = true
  ∧ (deleteTransaction 1 ((deleteTransaction 1 storeA).2)).1 = false
  ∧ deleteTransaction 99 storeA = (false, storeA) :=
  ⟨(deleteTransaction_spec 1 storeA).1.mpr ⟨txSalary, by decide, by decide⟩,
   (deleteTransaction_spec 1 storeA).2.2.1,
   (deleteTransaction_spec 99 storeA).2.2.2 (by decide)⟩

lemma matchesFilter_withName (input : Option GetTransactionsInput)
    (t : Transaction) (n : String) :
    matchesFilter input (t.withName n) = txCond input t := by
  cases input <;> rfl

lemma joinRow_eq_withName {s : Store} {t : Transaction}
    {row : TransactionWithCategory} (h : joinRow s t = some row) :
    ∃ c cs, s.categories.filter (fun c' => c'.id == t.category_id) = c :: cs
      ∧ row = t.withName c.name := by
  unfold joinRow at h
  cases hf : s.categories.filter (fun c' => c'.id == t.category_id) with
  | nil => rw [hf] at h; cases h
  | cons c cs =>
      rw [hf] at h
      injection h with h
      exact ⟨c, cs, rfl, h.symm⟩

lemma filterMap_join_comm (input : Option GetTransactionsInput) (s : Store)
    (l : List Transaction) :
    (l.filter (txCond input)).filterMap (joinRow s)
      = (l.filterMap (joinRow s)).filter (matchesFilter input) := by
  induction l with
  | nil => rfl
  | cons t l ih =>
      by_cases hc : txCond input t = true
      · rw [List.filter_cons, if_pos hc, List.filterMap_cons, List.filterMap_cons]
        cases hj : joinRow s t with
        | none => exact ih
        | some row =>
            obtain ⟨c, cs, _, hrow⟩ := joinRow_eq_withName hj
            have hmf : matchesFilter input row = true := by
              rw [hrow, matchesFilter_withName]
              exact hc
            rw [List.filter_cons, if_pos hmf, ih]
      · rw [List.filter_cons, if_neg hc, List.filterMap_cons]
        cases hj : joinRow s t with
        | none => exact ih
        | some row =>
            obtain ⟨c, cs, _, hrow⟩ := joinRow_eq_withName hj
            have hmf : matchesFilter input row = false := by
              rw [hrow, matchesFilter_withName]
              simpa using hc
            rw [List.filter_cons, hmf]
            simpa using ih

/-- C8 (amended): `getTransactions` returns the joined rows that satisfy
the conjunction of the provided predicates — where a supplied
`category_id` of `0` imposes no constraint — sorted ascending by date,
and with no filter every joined row is returned. -/
theorem getTransactions_spec (input : Option GetTransactionsInput) (s : Store) :
    List.Sorted byDate (getTransactions input s)
  ∧ (getTransactions input s).Perm ((joinedRows s).filter (matchesFilter input))
  ∧ (getTransactions none s).Perm (joinedRows s) := by
  refine ⟨List.sorted_insertionSort byDate _, ?_, ?_⟩
  · have heq : (s.transactions.filter (txCond input)).filterMap (joinRow s)
        = (joinedRows s).filter (matchesFilter input) :=
      filterMap_join_comm input s s.transactions
    rw [getTransactions, ← heq]
    exact List.perm_insertionSort byDate _
  · have hid : s.transactions.filter (txCond none) = s.transactions :=
      List.filter_eq_self.mpr (fun _ _ => rfl)
    rw [getTransactions, hid]
    exact List.perm_insertionSort byDate (s.transactions.filterMap (joinRow s))

/-- C8, counterexample to the claim as stated: with the filter
`category_id = 0` the code pushes no condition and returns every row,
while the claimed "`category_id` equal whenever supplied" predicate
matches nothing in the sample store, so the result is not the claimed
row set in any order. -/
theorem getTransactions_claim_counterexample :
    ¬ (getTransactions inputZero storeA).Perm
        ((joinedRows storeA).filter (claimedFilter inputZero)) := by
  intro h
  have hlen := h.length_eq
  have h1 : (getTransactions inputZero storeA).length = 4 := by decide
  have h2 : ((joinedRows storeA).filter (claimedFilter inputZero)).length = 0 := by
    decide
  rw [h1, h2] at hlen
  exact absurd hlen (by decide)

/-- C10: a filter whose `category_id` is `0` behaves exactly as the same
filter without a `category_id`: JavaScript truthiness drops the clause. -/
theorem getTransactions_zero_category_id (inp : GetTransactionsInput) (s : Store)
    (h : inp.category_id = some 0) :
    getTransactions (some inp) s
      = getTransactions (some { inp with category_id := none }) s := by
  have hcond : ∀ t ∈ s.transactions,
      txCond (some inp) t = txCond (some { inp with category_id := none }) t := by
    intro t _
    simp [txCond, h]
  rw [getTransactions, getTransactions, List.filter_congr hcond]

/-- C10, instantiated: on the sample store, filtering with
`category_id = 0` returns the same rows as not filtering by category. -/
theorem getTransactions_zero_category_id_witness :
    getTransactions inputZero storeA = getTransactions inputNoCat storeA :=
  getTransactions_zero_category_id
    { start_date := none, end_date := none, type := none, category_id := some 0 }
    storeA rfl

lemma map_update_id_of_ne_cat (i : Int) (g : Category → Category)
    (l : List Category) (h : ∀ c ∈ l, c.id ≠ i) :
    l.map (fun c => if c.id == i then g c else c) = l := by
  induction l with
  | nil => rfl
  | cons a l ih =>
      have hbeq : (a.id == i) = false := by simpa using h a (by simp)
      simp only [List.map_cons, hbeq, Bool.false_eq_true, if_false]
      rw [ih (fun c hc => h c (by simp [hc]))]

/-- C9: with neither field supplied, `updateCategory` performs no write —
it returns the stored row unchanged when the id resolves and "not found"
when it does not; with at least one field supplied it fails with "not
found" on an unresolved id and otherwise rewrites only the supplied
fields of the matching row, leaving every other row and every unsupplied
field unchanged. -/
theorem updateCategory_spec (input : UpdateCategoryInput) (s : Store) :
    (input.name = none → input.type = none →
      ((∀ c ∈ s.categories, c.id ≠ input.id) →
          updateCategory input s = (.notFound input.id, s))
      ∧ (∀ c cs, s.categories.filter (fun c' => c'.id == input.id) = c :: cs →
          updateCategory input s = (.ok c, s)))
  ∧ ((input.name ≠ none ∨ input.type ≠ none) →
      ((∀ c ∈ s.categories, c.id ≠ input.id) →
          (updateCategory input s).1 = .notFound input.id
        ∧ (updateCategory input s).2.categories = s.categories)
      ∧ (∀ c cs, s.categories.filter (fun c' => c'.id == input.id) = c :: cs →
          (updateCategory input s).1 = .ok (applyCatUpdate input c)
        ∧ (updateCategory input s).2.categories
            = s.categories.map
                (fun c' => if c'.id == input.id then applyCatUpdate input c' else c')
        ∧ (∀ c' ∈ s.categories, c'.id ≠ input.id →
            c' ∈ (updateCategory input s).2.categories)
        ∧ (input.name = none → (applyCatUpdate input c).name = c.name)
        ∧ (input.type = none → (applyCatUpdate input c).type = c.type))) := by
  constructor
  · intro hn ht
    have hcond : (input.name.isNone && input.type.isNone) = true := by
      simp [hn, ht]
    constructor
    · intro h
      have hf : s.categories.filter (fun c => c.id == input.id) = [] :=
        List.filter_eq_nil_iff.mpr (fun c hc => by simpa using h c hc)
      simp [updateCategory, hcond, hf]
    · intro c cs hfilter
      rw [updateCategory, if_pos hcond, hfilter]
  · intro hsome
    have hcond : (input.name.isNone && input.type.isNone) = false := by
      rcases hsome with h | h <;> cases hn : input.name <;> cases ht : input.type <;>
        simp_all
    constructor
    · intro h
      have hf : s.categories.filter (fun c => c.id == input.id) = [] :=
        List.filter_eq_nil_iff.mpr (fun c hc => by simpa using h c hc)
      have hmap : s.categories.map
          (fun c' => if c'.id == input.id then applyCatUpdate input c' else c')
          = s.categories := map_update_id_of_ne_cat input.id _ s.categories h
      constructor
      · rw [updateCategory, if_neg (by simp [hcond]), hf]
        simp
      · rw [updateCategory, if_neg (by simp [hcond]), hf]
        simpa using hmap
    · intro c cs hfilter
      have hres : updateCategory input s
          = (.ok (applyCatUpdate input c),
             { s with
               categories := s.categories.map
                 (fun c' => if c'.id == input.id then applyCatUpdate input c' else c') }) := by
        rw [updateCategory, if_neg (by simp [hcond]), hfilter]
        rfl
      refine ⟨by rw [hres], by rw [hres], ?_, ?_, ?_⟩
      · intro c' hc' hne
        rw [hres]
        have heq : (if c'.id == input.id then applyCatUpdate input c' else c') = c' := by
          simp [hne]
        exact heq ▸ List.mem_map_of_mem _ hc'
      · intro h
        simp [applyCatUpdate, h]
      · intro h
        simp [applyCatUpdate, h]

/-- C9, instantiated: an empty update of the sample income category
returns it unchanged with the store untouched; an empty update of an
unknown id fails with "not found"; renaming the category keeps its type;
and updating an unknown id with a field supplied also fails. -/
theorem updateCategory_spec_witness :
    updateCategory { id := 1, name := none, type := none } storeA
      = (.ok catSalary, storeA)
  ∧ updateCategory { id := 99, name := none, type := none } storeA
      = (.notFound 99, storeA)
  ∧ (updateCategory { id := 1, name := some "Gaji", type := none } storeA).1
      = .ok (applyCatUpdate { id := 1, name := some "Gaji", type := none } catSalary)
  ∧ (applyCatUpdate { id := 1, name := some "Gaji", type := none } catSalary).type
      = catSalary.type
  ∧ (updateCategory { id := 99, name := some "X", type := none } storeA).1
      = .notFound 99 :=
  ⟨((updateCategory_spec { id := 1, name := none, type := none } storeA).1 rfl rfl).2
      catSalary [] (by decide),
   ((updateCategory_spec { id := 99, name := none, type := none } storeA).1 rfl rfl).1
      (by decide),
   (((updateCategory_spec { id := 1, name := some "Gaji", type := none } storeA).2
      (Or.inl (by decide))).2 catSalary [] (by decide)).1,
   (((updateCategory_spec { id := 1, name := some "Gaji", type := none } storeA).2
      (Or.inl (by decide))).2 catSalary [] (by decide)).2.2.2.2 rfl,
   (((updateCategory_spec { id := 99, name := some "X", type := none } storeA).2
      (Or.inl (by decide))).1 (by decide)).1⟩
